import Mathlib

/-!
Overlay resolver and verb dispatcher of `Cpp_Implementation/main.cpp`

A shallow embedding of the FUSE passthrough program: the resolver
`get_full_path`, the five verbs `passthrough_getattr`, `passthrough_readdir`,
`passthrough_read`, `passthrough_write`, `passthrough_mkdir`, and the option
loop of `main`.

Conventions of the embedding.

* A C string is the list of its `char`s before the terminating NUL.
* The operating system is a record `Sys σ` of native operations over a world
  state `σ`.  A native call that fails (returns `-1` or `NULL` and sets
  `errno` to `e`) is `Except.error e`; a call that succeeds is `Except.ok`.
  `free` keeps `errno` (POSIX.1-2024, glibc 2.33 and later), so reading
  `errno` after `free(full_path)` reads the code left by the failed call.
* Every function returns, next to its C result, the list of native calls it
  issued, in program order.
* `pread` and `pwrite` transfer at most `0x7ffff000` bytes on Linux, so the
  assignment of their `ssize_t` result to `int res` keeps the value and the
  test `res == -1` holds exactly when the call failed.
-/

namespace Fuse

/-- A C string: the `char`s before the terminating NUL. -/
abbrev CStr := List Char

/-- The value of `PATH_MAX` in the Linux `<limits.h>`. -/
def PATH_MAX : Nat := 4096

/-- The value of `ENOENT` in the Linux `<errno.h>`. -/
def ENOENT : Int := 2

/-- The value of `EEXIST` in the Linux `<errno.h>`. -/
def EEXIST : Int := 17

/-- The value of `O_RDONLY` in the Linux `<fcntl.h>`. -/
def O_RDONLY : Nat := 0

/-- The value of `O_WRONLY` in the Linux `<fcntl.h>`. -/
def O_WRONLY : Nat := 1

/-- The static globals of the program, as they stand once `main` has run its
option loop: `root` is `argv[2]`, the other four are `NULL` (`none`) until an
option sets them. -/
structure Config where
  root : CStr
  fallbackPath : Option CStr
  remoteHost : Option CStr
  remoteDirectory : Option CStr
  localMountPoint : Option CStr
  deriving DecidableEq, Repr

/-- The guard of the remote tier,
`remoteHost != NULL && remoteDirectory != NULL && localMountPoint != NULL`. -/
def remoteConfigured (cfg : Config) : Bool :=
  cfg.remoteHost.isSome && cfg.remoteDirectory.isSome && cfg.localMountPoint.isSome

/-- The fields of `struct stat` the program itself writes. -/
structure Stat where
  st_ino : Nat
  st_mode : Nat
  deriving DecidableEq, Repr

/-- The fields of `struct dirent` the program reads. -/
structure Dirent where
  d_ino : Nat
  d_type : Nat
  d_name : CStr
  deriving DecidableEq, Repr

/-- A native call issued by the program. -/
inductive Call where
  | access (path : CStr)
  | lstat (path : CStr)
  | opendir (path : CStr)
  | readdir
  | closedir
  | open_ (path : CStr) (flags : Nat)
  | pread (fd : Nat) (size : Nat) (offset : Int)
  | pwrite (fd : Nat) (buf : List Char) (size : Nat) (offset : Int)
  | close (fd : Nat)
  | mkdir (path : CStr) (mode : Nat)
  deriving DecidableEq, Repr

/-- Whether a call is an existence probe of the resolver (`access`) rather
than a native operation of a verb. -/
def Call.isProbe : Call → Bool
  | Call.access _ => true
  | _ => false

/-- The native operations the program calls, over a world state `σ`.
`malloc s` tells whether `malloc(PATH_MAX)` succeeds; `access s p` is
`access(p, F_OK) == 0`; `opendir` gives, on success, the entries that the
following `readdir` calls deliver before they return `NULL`; `pread` gives the
bytes read, their number being its return value. The calls that can change
the world return the new state. -/
structure Sys (σ : Type) where
  malloc : σ → Bool
  access : σ → CStr → Bool
  lstat : σ → CStr → Except Int Stat
  opendir : σ → CStr → Except Int (List Dirent)
  open_ : σ → CStr → Nat → Except Int Nat × σ
  pread : σ → Nat → Nat → Int → Except Int (List Char) × σ
  pwrite : σ → Nat → List Char → Nat → Int → Except Int Nat × σ
  close : σ → Nat → σ
  mkdir : σ → CStr → Nat → Except Int Unit × σ

/-- The text the format `"%s/%s"` makes of `base` and `path`. -/
def join2 (base path : CStr) : CStr :=
  base ++ '/' :: path

/-- The text the format `"%s/%s/%s"` makes of `base`, `dir` and `path`. -/
def join3 (base dir path : CStr) : CStr :=
  base ++ '/' :: (dir ++ '/' :: path)

/-- The call `snprintf(full_path, PATH_MAX, "%s/%s", base, path)`: the buffer
holds the first `PATH_MAX - 1` chars of the formatted text. -/
def snprintf2 (base path : CStr) : CStr :=
  (join2 base path).take (PATH_MAX - 1)

/-- The call `snprintf(full_path, PATH_MAX, "%s/%s/%s", base, dir, path)`. -/
def snprintf3 (base dir path : CStr) : CStr :=
  (join3 base dir path).take (PATH_MAX - 1)

/-- The step `if (path[0] == '/') path++;`. -/
def skipSlash (path : CStr) : CStr :=
  match path with
  | '/' :: rest => rest
  | _ => path

/-- One tier of `get_full_path`: the buffer holds `cand`, `access` probes it,
and the buffer is returned when the probe succeeds. -/
def probe {σ : Type} (os : Sys σ) (s : σ) (cand : CStr) : Option CStr × List Call :=
  if os.access s cand then (some cand, [Call.access cand]) else (none, [Call.access cand])

/-- The function `get_full_path(path, useFallback)`. The result is `none` for
`NULL`; the second component lists the `access` probes made. -/
def get_full_path {σ : Type} (os : Sys σ) (cfg : Config) (s : σ) (path : CStr)
    (useFallback : Bool) : Option CStr × List Call :=
  if os.malloc s = false then (none, []) else
  let path := skipSlash path
  let r1 : Option CStr × List Call :=
    if useFallback then (none, []) else probe os s (snprintf2 cfg.root path)
  match r1 with
  | (some full_path, t1) => (some full_path, t1)
  | (none, t1) =>
    let r2 : Option CStr × List Call :=
      match cfg.fallbackPath with
      | none => (none, [])
      | some fb => probe os s (snprintf2 fb path)
    match r2 with
    | (some full_path, t2) => (some full_path, t1 ++ t2)
    | (none, t2) =>
      match cfg.remoteHost, cfg.remoteDirectory, cfg.localMountPoint with
      | some _, some rd, some lm =>
        let r3 := probe os s (snprintf3 lm rd path)
        (r3.1, t1 ++ t2 ++ r3.2)
      | _, _, _ => (none, t1 ++ t2)

/-- What a verb hands back to the FUSE host: the `int` it returns, what it
wrote through its output pointer, the world state it leaves and the native
calls it issued. -/
structure Outcome (σ α : Type) where
  ret : Int
  out : α
  state : σ
  trace : List Call

/-- The verb `passthrough_getattr(path, stbuf)`; `out` is what `lstat` wrote
to `stbuf`, if it did. -/
def passthrough_getattr {σ : Type} (os : Sys σ) (cfg : Config) (s : σ) (path : CStr) :
    Outcome σ (Option Stat) :=
  match get_full_path os cfg s path false with
  | (none, t) => ⟨-ENOENT, none, s, t⟩
  | (some full_path, t) =>
    match os.lstat s full_path with
    | .error e => ⟨-e, none, s, t ++ [Call.lstat full_path]⟩
    | .ok st => ⟨0, some st, s, t ++ [Call.lstat full_path]⟩

/-- The loop `while ((de = readdir(dp)) != NULL) { ... }` of
`passthrough_readdir`: each entry is handed to `filler` with a `struct stat`
holding `d_ino` and `d_type << 12`, until `filler` answers non-zero or the
entries run out. -/
def readdir_loop {β : Type} (filler : β → CStr → Stat → Bool × β) :
    List Dirent → β → β × List Call
  | [], buf => (buf, [Call.readdir])
  | de :: rest, buf =>
    let st : Stat := ⟨de.d_ino, (de.d_type % 256) <<< 12⟩
    let r := filler buf de.d_name st
    if r.1 then (r.2, [Call.readdir])
    else
      let k := readdir_loop filler rest r.2
      (k.1, Call.readdir :: k.2)

/-- The verb `passthrough_readdir(path, buf, filler, offset, fi)`; `offset`
and `fi` are not read by the code. -/
def passthrough_readdir {σ β : Type} (os : Sys σ) (cfg : Config) (s : σ) (path : CStr)
    (buf : β) (filler : β → CStr → Stat → Bool × β) : Outcome σ β :=
  match get_full_path os cfg s path false with
  | (none, t) => ⟨-ENOENT, buf, s, t⟩
  | (some full_path, t) =>
    match os.opendir s full_path with
    | .error e => ⟨-e, buf, s, t ++ [Call.opendir full_path]⟩
    | .ok entries =>
      let k := readdir_loop filler entries buf
      ⟨0, k.1, s, t ++ [Call.opendir full_path] ++ k.2 ++ [Call.closedir]⟩

/-- The verb `passthrough_read(path, buf, size, offset, fi)`; `out` is what
`pread` put in `buf`. -/
def passthrough_read {σ : Type} (os : Sys σ) (cfg : Config) (s : σ) (path : CStr)
    (size : Nat) (offset : Int) : Outcome σ (List Char) :=
  match get_full_path os cfg s path false with
  | (none, t) => ⟨-ENOENT, [], s, t⟩
  | (some full_path, t) =>
    match os.open_ s full_path O_RDONLY with
    | (.error e, s1) => ⟨-e, [], s1, t ++ [Call.open_ full_path O_RDONLY]⟩
    | (.ok fd, s1) =>
      match os.pread s1 fd size offset with
      | (.error e, s2) =>
        ⟨-e, [], os.close s2 fd,
          t ++ [Call.open_ full_path O_RDONLY, Call.pread fd size offset, Call.close fd]⟩
      | (.ok bytes, s2) =>
        ⟨bytes.length, bytes, os.close s2 fd,
          t ++ [Call.open_ full_path O_RDONLY, Call.pread fd size offset, Call.close fd]⟩

/-- The verb `passthrough_write(path, buf, size, offset, fi)`. -/
def passthrough_write {σ : Type} (os : Sys σ) (cfg : Config) (s : σ) (path : CStr)
    (buf : List Char) (size : Nat) (offset : Int) : Outcome σ Unit :=
  match get_full_path os cfg s path false with
  | (none, t) => ⟨-ENOENT, (), s, t⟩
  | (some full_path, t) =>
    match os.open_ s full_path O_WRONLY with
    | (.error e, s1) => ⟨-e, (), s1, t ++ [Call.open_ full_path O_WRONLY]⟩
    | (.ok fd, s1) =>
      match os.pwrite s1 fd buf size offset with
      | (.error e, s2) =>
        ⟨-e, (), os.close s2 fd,
          t ++ [Call.open_ full_path O_WRONLY, Call.pwrite fd buf size offset, Call.close fd]⟩
      | (.ok n, s2) =>
        ⟨n, (), os.close s2 fd,
          t ++ [Call.open_ full_path O_WRONLY, Call.pwrite fd buf size offset, Call.close fd]⟩

/-- The verb `passthrough_mkdir(path, mode)`. -/
def passthrough_mkdir {σ : Type} (os : Sys σ) (cfg : Config) (s : σ) (path : CStr)
    (mode : Nat) : Outcome σ Unit :=
  match get_full_path os cfg s path false with
  | (none, t) => ⟨-ENOENT, (), s, t⟩
  | (some full_path, t) =>
    match os.mkdir s full_path mode with
    | (.error e, s1) => ⟨-e, (), s1, t ++ [Call.mkdir full_path mode]⟩
    | (.ok _, s1) => ⟨0, (), s1, t ++ [Call.mkdir full_path mode]⟩

/-- One call of `strtok` with the delimiter set `":"` on the text `s` (the
argument of the first call, the saved position of a later one): leading
colons are skipped; at the end of the text the result is `NULL`; otherwise
the token runs to the next colon or the end, and the saved position is just
past that colon. -/
def strtok (s : CStr) : Option CStr × CStr :=
  let s1 := s.dropWhile (fun c => c == ':')
  match s1 with
  | [] => (none, [])
  | _ :: _ =>
    (some (s1.takeWhile (fun c => c != ':')), (s1.dropWhile (fun c => c != ':')).drop 1)

/-- The option loop of `main`, `for (int i = 3; i < argc; i++)`, on the
arguments from `argv[i]` on. An option name is honoured only when an
argument follows it (`i + 1 < argc`), and that argument is then skipped. -/
def parseOpts : List CStr → Config → Config
  | a :: b :: rest, c =>
    if a = "--fallback".toList then
      parseOpts rest { c with fallbackPath := some b }
    else if a = "--remote".toList then
      parseOpts rest
        { c with remoteHost := (strtok b).1, remoteDirectory := (strtok (strtok b).2).1 }
    else if a = "--local".toList then
      parseOpts rest { c with localMountPoint := some b }
    else parseOpts (b :: rest) c
  | _, c => c

/-- The globals as `main` leaves them when it calls `fuse_main`; `none` when
`argc < 3` and `main` returns 1 after the usage message. -/
def main (argv : List CStr) : Option Config :=
  match argv with
  | _ :: _ :: r :: opts => some (parseOpts opts ⟨r, none, none, none, none⟩)
  | _ => none

/-- The outcome of a verb that fails with `-ENOENT`, leaves the world as it
was and has issued no call but existence probes: no `lstat`, `opendir`,
`open`, `pread`, `pwrite` or `mkdir`. -/
def Outcome.noEntry {σ α : Type} (o : Outcome σ α) (s : σ) : Prop :=
  o.ret = -ENOENT ∧ o.state = s ∧ ∀ c ∈ o.trace, c.isProbe = true

/-- The calls of a verb are those of one resolution, `t`, followed by native
operations that start with `first` and hold no existence probe: the resolver
ran once, before the native operation, and not again after it. -/
def Outcome.nativeAfter {σ α : Type} (o : Outcome σ α) (t : List Call) (first : Call) : Prop :=
  ∃ ops, o.trace = t ++ first :: ops ∧ ∀ c ∈ first :: ops, c.isProbe = false

/-! ## Concrete worlds for the examples -/

/-- A small world: the state is the list of the paths that exist, `mem` tells
whether `malloc` succeeds. `mkdir` fails with `EEXIST` on a path that exists
and adds the path otherwise; the other calls fail with `ENOENT` on a path
that does not exist. -/
def simSys (mem : Bool) : Sys (List CStr) where
  malloc := fun _ => mem
  access := fun fs p => decide (p ∈ fs)
  lstat := fun fs p => if p ∈ fs then .ok ⟨1, 0⟩ else .error ENOENT
  opendir := fun fs p => if p ∈ fs then .ok [] else .error ENOENT
  open_ := fun fs p _ => (if p ∈ fs then .ok 3 else .error ENOENT, fs)
  pread := fun fs _ size _ => (.ok (List.replicate (min size 5) 'x'), fs)
  pwrite := fun fs _ _ size _ => (.ok size, fs)
  close := fun fs _ => fs
  mkdir := fun fs p _ => if p ∈ fs then (.error EEXIST, fs) else (.ok (), p :: fs)

/-- The configuration `primary_root=/data/primary`, nothing else set. -/
def cfgPrimary : Config :=
  ⟨"/data/primary".toList, none, none, none, none⟩

/-- The configuration `primary_root=/data/primary`,
`fallback_root=/data/fallback`, no remote overlay. -/
def cfgFallback : Config :=
  ⟨"/data/primary".toList, some "/data/fallback".toList, none, none, none⟩

/-- The configuration with the remote overlay `remote_directory="shared"`,
`local_mount_point="/mnt/remote"`, as `--remote host:shared --local
/mnt/remote` sets it. -/
def cfgRemote : Config :=
  ⟨"/data/primary".toList, none, some "host".toList, some "shared".toList,
    some "/mnt/remote".toList⟩

/-- The directory path `/r/r/.../r` with `n` components `r`. -/
def rdirs : Nat → CStr
  | 0 => []
  | n + 1 => '/' :: 'r' :: rdirs n

/-- A primary root of 4090 chars: the directory `/r/r/.../r`, 2045 deep. -/
def longRoot : CStr :=
  rdirs 2045

/-- The configuration whose only tier is `longRoot`. -/
def cfgLong : Config :=
  ⟨longRoot, none, none, none, none⟩

/-- The configuration with primary root `longRoot` and fallback root `/f`. -/
def cfgLongFallback : Config :=
  ⟨longRoot, some "/f".toList, none, none, none⟩

/-- The 4095 chars that `snprintf` leaves in the buffer for `longRoot` and the
virtual path `/aaaaaaaa`, namely `longRoot/aaaa`: the candidate
`longRoot/aaaaaaaa` has 4099. -/
def longCut : CStr :=
  longRoot ++ "/aaaa".toList

/-! ## Lemmas on the resolver -/

/-- The path `rdirs n` has `2 * n` chars. -/
theorem rdirs_length (n : Nat) : (rdirs n).length = 2 * n := by
  induction n with
  | zero => rfl
  | succ k ih =>
    simp only [rdirs, List.length_cons, ih]
    omega

/-- The root `longRoot` has 4090 chars. -/
theorem longRoot_length : longRoot.length = 4090 := by
  unfold longRoot
  rw [rdirs_length]

/-- The buffer holds `longCut` for the root `longRoot` and the path `aaaaaaaa`. -/
theorem snprintf2_longRoot : snprintf2 longRoot "aaaaaaaa".toList = longCut := by
  simp [snprintf2, join2, PATH_MAX, longCut, List.take_append_eq_append_take, longRoot_length]

/-- The candidate `longRoot/aaaaaaaa` is not what the buffer holds. -/
theorem join2_longRoot_ne : join2 longRoot "aaaaaaaa".toList ≠ longCut := by
  simp [join2, longCut]

/-- In the world that holds `longCut` alone, the probe of the buffer's
content succeeds. -/
theorem simSys_longCut (mem : Bool) :
    (simSys mem).access [longCut] (snprintf2 cfgLong.root (skipSlash "/aaaaaaaa".toList))
      = true := by
  have h1 : skipSlash "/aaaaaaaa".toList = "aaaaaaaa".toList := rfl
  have h2 : cfgLong.root = longRoot := rfl
  rw [h1, h2, snprintf2_longRoot]
  simp [simSys]

/-- In the world that holds `longCut` alone, the whole candidate does not
exist. -/
theorem simSys_longJoin (mem : Bool) :
    (simSys mem).access [longCut] (join2 cfgLong.root (skipSlash "/aaaaaaaa".toList))
      = false := by
  have h1 : skipSlash "/aaaaaaaa".toList = "aaaaaaaa".toList := rfl
  have h2 : cfgLong.root = longRoot := rfl
  rw [h1, h2]
  simp only [simSys, decide_eq_false_iff_not, List.mem_singleton]
  exact join2_longRoot_ne

/-- A text shorter than `PATH_MAX` fits the buffer whole. -/
theorem snprintf2_fits (base path : CStr) (h : (join2 base path).length < PATH_MAX) :
    snprintf2 base path = join2 base path := by
  unfold snprintf2
  exact List.take_of_length_le (by omega)

/-- A text shorter than `PATH_MAX` fits the buffer whole. -/
theorem snprintf3_fits (base dir path : CStr) (h : (join3 base dir path).length < PATH_MAX) :
    snprintf3 base dir path = join3 base dir path := by
  unfold snprintf3
  exact List.take_of_length_le (by omega)

/-- When `malloc` fails the resolver returns `NULL` and probes nothing. -/
theorem get_full_path_nomem {σ : Type} (os : Sys σ) (cfg : Config) (s : σ) (p : CStr)
    (uf : Bool) (h : os.malloc s = false) : get_full_path os cfg s p uf = (none, []) := by
  simp [get_full_path, h]

/-- When the primary candidate exists the resolver returns it after one probe. -/
theorem get_full_path_primary {σ : Type} (os : Sys σ) (cfg : Config) (s : σ) (p : CStr)
    (hm : os.malloc s = true) (h : os.access s (snprintf2 cfg.root (skipSlash p)) = true) :
    get_full_path os cfg s p false =
      (some (snprintf2 cfg.root (skipSlash p)), [Call.access (snprintf2 cfg.root (skipSlash p))]) := by
  simp [get_full_path, probe, hm, h]

/-- The chars `longCut` differ from `/f/aaaaaaaa`. -/
theorem longCut_ne_short : longCut ≠ "/f/aaaaaaaa".toList := by
  intro h
  have hl := congrArg List.length h
  simp only [longCut, List.length_append, longRoot_length] at hl
  revert hl
  decide

/-- When the primary probe fails and the fallback probe succeeds, the
resolver returns the fallback candidate after those two probes. -/
theorem get_full_path_fallback {σ : Type} (os : Sys σ) (cfg : Config) (s : σ) (p fb : CStr)
    (hm : os.malloc s = true) (hfb : cfg.fallbackPath = some fb)
    (h1 : os.access s (snprintf2 cfg.root (skipSlash p)) = false)
    (h2 : os.access s (snprintf2 fb (skipSlash p)) = true) :
    get_full_path os cfg s p false =
      (some (snprintf2 fb (skipSlash p)),
        [Call.access (snprintf2 cfg.root (skipSlash p)),
          Call.access (snprintf2 fb (skipSlash p))]) := by
  simp [get_full_path, probe, hm, hfb, h1, h2]

/-- When the probes of the primary and of the configured fallback fail and
the remote tier is configured, the resolver returns what the remote probe
gives. -/
theorem get_full_path_remote {σ : Type} (os : Sys σ) (cfg : Config) (s : σ)
    (p rh rd lm : CStr) (hm : os.malloc s = true)
    (h1 : os.access s (snprintf2 cfg.root (skipSlash p)) = false)
    (h2 : ∀ fb, cfg.fallbackPath = some fb → os.access s (snprintf2 fb (skipSlash p)) = false)
    (hrh : cfg.remoteHost = some rh) (hrd : cfg.remoteDirectory = some rd)
    (hlm : cfg.localMountPoint = some lm) :
    (get_full_path os cfg s p false).1 =
      (if os.access s (snprintf3 lm rd (skipSlash p)) = true
        then some (snprintf3 lm rd (skipSlash p)) else none) := by
  obtain ⟨root, fb, rh0, rd0, lm0⟩ := cfg
  simp only at hrh hrd hlm h1 h2
  subst hrh hrd hlm
  cases fb with
  | none => 
    by_cases h3 : os.access s (snprintf3 lm rd (skipSlash p)) = true <;>
      simp [get_full_path, probe, hm, h1, h3]
  | some fb =>
    have h2f := h2 fb rfl
    by_cases h3 : os.access s (snprintf3 lm rd (skipSlash p)) = true <;>
      simp [get_full_path, probe, hm, h1, h2f, h3]

/-- When the remote tier is not configured and the probes of the primary and
of the configured fallback fail, the resolver returns `NULL`. -/
theorem get_full_path_noremote {σ : Type} (os : Sys σ) (cfg : Config) (s : σ) (p : CStr)
    (h1 : os.access s (snprintf2 cfg.root (skipSlash p)) = false)
    (h2 : ∀ fb, cfg.fallbackPath = some fb → os.access s (snprintf2 fb (skipSlash p)) = false)
    (hrem : remoteConfigured cfg = false) :
    (get_full_path os cfg s p false).1 = none := by
  obtain ⟨root, fb, rh, rd, lm⟩ := cfg
  simp only at h1 h2
  cases hm : os.malloc s
  · simp [get_full_path, hm]
  · cases fb with
    | none =>
      cases rh <;> cases rd <;> cases lm <;>
        simp_all [get_full_path, probe, remoteConfigured]
    | some fb =>
      have h2f := h2 fb rfl
      cases rh <;> cases rd <;> cases lm <;>
        simp_all [get_full_path, probe, remoteConfigured]

/-- Every call the resolver makes is an existence probe. -/
theorem get_full_path_probes {σ : Type} (os : Sys σ) (cfg : Config) (s : σ) (p : CStr)
    (uf : Bool) : ∀ c ∈ (get_full_path os cfg s p uf).2, c.isProbe = true := by
  obtain ⟨root, fb, rh, rd, lm⟩ := cfg
  cases hm : os.malloc s
  · simp [get_full_path, hm]
  · cases h1 : os.access s (snprintf2 root (skipSlash p)) <;> cases uf <;>
      cases fb <;> cases rh <;> cases rd <;> cases lm <;>
      simp [get_full_path, probe, hm, h1, Call.isProbe] <;>
      split_ifs <;> simp [Call.isProbe]

/-- In a world that holds `longRoot/aaaaaaaa` and `/f/aaaaaaaa`, under the
primary root `longRoot` and the fallback root `/f`, the path `/aaaaaaaa`
resolves to the fallback path. -/
theorem get_full_path_longFallback :
    (get_full_path (simSys true) cfgLongFallback
      [join2 longRoot "aaaaaaaa".toList, "/f/aaaaaaaa".toList]
      "/aaaaaaaa".toList false).1 = some "/f/aaaaaaaa".toList := by
  have h1 : skipSlash "/aaaaaaaa".toList = "aaaaaaaa".toList := rfl
  have h2 : cfgLongFallback.root = longRoot := rfl
  have hs : snprintf2 "/f".toList "aaaaaaaa".toList = "/f/aaaaaaaa".toList := by decide
  rw [get_full_path_fallback (simSys true) cfgLongFallback _ _ "/f".toList rfl rfl]
  · rw [h1]
    exact congrArg some hs
  · rw [h1, h2, snprintf2_longRoot]
    simp only [simSys, decide_eq_false_iff_not, List.mem_cons, List.mem_singleton,
      List.not_mem_nil, or_false, not_or]
    exact ⟨fun h => join2_longRoot_ne h.symm, longCut_ne_short⟩
  · rw [h1, hs]
    simp [simSys]

/-- The candidate `longRoot/aaaaaaaa` differs from `/f/aaaaaaaa`. -/
theorem join2_longRoot_ne_short : join2 longRoot "aaaaaaaa".toList ≠ "/f/aaaaaaaa".toList := by
  intro h
  have hl := congrArg List.length h
  simp only [join2, List.length_append, List.length_cons, longRoot_length] at hl
  revert hl
  decide

/-- In the world that holds `longCut` alone, under the only root `longRoot`,
the path `/aaaaaaaa` resolves to `longCut` after one probe. -/
theorem get_full_path_long :
    get_full_path (simSys true) cfgLong [longCut] "/aaaaaaaa".toList false =
      (some longCut, [Call.access longCut]) := by
  rw [get_full_path_primary (simSys true) cfgLong [longCut] "/aaaaaaaa".toList rfl
    (simSys_longCut true)]
  have h1 : skipSlash "/aaaaaaaa".toList = "aaaaaaaa".toList := rfl
  have h2 : cfgLong.root = longRoot := rfl
  rw [h1, h2, snprintf2_longRoot]

/-- When no candidate the resolver builds exists, it returns `NULL`. -/
theorem get_full_path_none {σ : Type} (os : Sys σ) (cfg : Config) (s : σ) (p : CStr)
    (h1 : os.access s (snprintf2 cfg.root (skipSlash p)) = false)
    (h2 : ∀ fb, cfg.fallbackPath = some fb → os.access s (snprintf2 fb (skipSlash p)) = false)
    (h3 : ∀ rh rd lm, cfg.remoteHost = some rh → cfg.remoteDirectory = some rd →
      cfg.localMountPoint = some lm → os.access s (snprintf3 lm rd (skipSlash p)) = false) :
    (get_full_path os cfg s p false).1 = none := by
  cases hm : os.malloc s
  · rw [get_full_path_nomem os cfg s p false hm]
  · cases hr : remoteConfigured cfg
    · exact get_full_path_noremote os cfg s p h1 h2 hr
    · obtain ⟨root, fb, rh, rd, lm⟩ := cfg
      cases rh <;> cases rd <;> cases lm <;> simp [remoteConfigured] at hr
      rename_i rh rd lm
      rw [get_full_path_remote os _ s p rh rd lm hm h1 h2 rfl rfl rfl]
      simp [h3 rh rd lm rfl rfl rfl]

/-- A path the resolver returns has passed its existence probe, and that
probe is the last call the resolver made. -/
theorem get_full_path_exists {σ : Type} (os : Sys σ) (cfg : Config) (s : σ) (p fp : CStr)
    (uf : Bool) (h : (get_full_path os cfg s p uf).1 = some fp) :
    os.access s fp = true ∧ Call.access fp ∈ (get_full_path os cfg s p uf).2 := by
  obtain ⟨root, fb, rh, rd, lm⟩ := cfg
  revert h
  cases hm : os.malloc s
  · simp [get_full_path, hm]
  · cases h1 : os.access s (snprintf2 root (skipSlash p)) <;> cases uf <;>
      cases fb <;> cases rh <;> cases rd <;> cases lm <;>
      simp [get_full_path, probe, hm, h1] <;>
      (try split_ifs) <;> intros <;> simp_all

/-- In the world that holds `longCut` and `/f/aaaaaaaa`, under the primary
root `longRoot` and the fallback root `/f`, the path `/aaaaaaaa` resolves to
`longCut`, the cut primary candidate. -/
theorem get_full_path_longCutFallback :
    (get_full_path (simSys true) cfgLongFallback [longCut, "/f/aaaaaaaa".toList]
      "/aaaaaaaa".toList false).1 = some longCut := by
  have h1 : skipSlash "/aaaaaaaa".toList = "aaaaaaaa".toList := rfl
  have h2 : cfgLongFallback.root = longRoot := rfl
  rw [get_full_path_primary (simSys true) cfgLongFallback _ _ rfl, h1, h2, snprintf2_longRoot]
  rw [h1, h2, snprintf2_longRoot]
  simp [simSys]

/-- A verb whose resolution gives `NULL` returns `-ENOENT` and issues nothing
but the probes of that resolution. -/
theorem verbs_of_none {σ β : Type} (os : Sys σ) (cfg : Config) (s : σ) (p : CStr)
    (buf : β) (filler : β → CStr → Stat → Bool × β) (size : Nat) (offset : Int)
    (wbuf : List Char) (mode : Nat) (h : (get_full_path os cfg s p false).1 = none) :
    (passthrough_getattr os cfg s p).noEntry s ∧
      (passthrough_readdir os cfg s p buf filler).noEntry s ∧
      (passthrough_read os cfg s p size offset).noEntry s ∧
      (passthrough_write os cfg s p wbuf size offset).noEntry s ∧
      (passthrough_mkdir os cfg s p mode).noEntry s := by
  have hp := get_full_path_probes os cfg s p false
  rcases hg : get_full_path os cfg s p false with ⟨r, t⟩
  rw [hg] at h hp
  simp only at h hp
  subst h
  simp only [Outcome.noEntry, passthrough_getattr, passthrough_readdir, passthrough_read,
    passthrough_write, passthrough_mkdir, hg, true_and]
  exact ⟨hp, hp, hp, hp, hp⟩

/-! ## Lemmas on the option loop -/

/-- Without `--local` among the arguments the loop leaves `localMountPoint`
as it was. -/
theorem parseOpts_local (opts : List CStr) (c : Config) (h : "--local".toList ∉ opts) :
    (parseOpts opts c).localMountPoint = c.localMountPoint := by
  induction opts, c using parseOpts.induct <;> simp_all [parseOpts]

/-- Without `--remote` among the arguments the loop leaves `remoteHost` and
`remoteDirectory` as they were. -/
theorem parseOpts_remote (opts : List CStr) (c : Config) (h : "--remote".toList ∉ opts) :
    (parseOpts opts c).remoteHost = c.remoteHost ∧
      (parseOpts opts c).remoteDirectory = c.remoteDirectory := by
  induction opts, c using parseOpts.induct <;> simp_all [parseOpts]

/-- With fewer than two arguments left the loop changes nothing. -/
theorem parseOpts_short (t : List CStr) (c : Config)
    (hne : ∀ (a b : CStr) (rest : List CStr), t = a :: b :: rest → False) :
    parseOpts t c = c := by
  cases t with
  | nil => simp [parseOpts]
  | cons a t =>
    cases t with
    | nil => simp [parseOpts]
    | cons b rest => exact absurd rfl (hne a b rest)

/-- The chars before the first colon. -/
theorem takeWhile_host (host dir : CStr) (h : ':' ∉ host) :
    (host ++ ':' :: dir).takeWhile (fun c => c != ':') = host := by
  induction host with
  | nil => simp
  | cons a t ih =>
    simp only [List.mem_cons, not_or] at h
    have ha : (a != ':') = true := by simpa [bne_iff_ne] using Ne.symm h.1
    simp [List.takeWhile_cons, ha, ih h.2]

/-- The text from the first colon on. -/
theorem dropWhile_host (host dir : CStr) (h : ':' ∉ host) :
    (host ++ ':' :: dir).dropWhile (fun c => c != ':') = ':' :: dir := by
  induction host with
  | nil => simp
  | cons a t ih =>
    simp only [List.mem_cons, not_or] at h
    have ha : (a != ':') = true := by simpa [bne_iff_ne] using Ne.symm h.1
    simp [List.dropWhile_cons, ha, ih h.2]

/-- On `host:dir`, with `host` non-empty and free of colons, the first call of
`strtok` gives `host` and saves the position of `dir`. -/
theorem strtok_host (host dir : CStr) (hne : host ≠ []) (h : ':' ∉ host) :
    strtok (host ++ ':' :: dir) = (some host, dir) := by
  cases host with
  | nil => exact absurd rfl hne
  | cons a t =>
    have h' := h
    simp only [List.mem_cons, not_or] at h'
    have ha : (a == ':') = false := by simpa using Ne.symm h'.1
    have hd : ((a :: t) ++ ':' :: dir).dropWhile (fun c => c == ':') = (a :: t) ++ ':' :: dir := by
      simp [List.dropWhile_cons, ha]
    unfold strtok
    simp only [hd]
    rw [takeWhile_host _ _ h, dropWhile_host _ _ h]
    simp

/-- On a non-empty text free of colons `strtok` gives the text. -/
theorem strtok_dir (dir : CStr) (hne : dir ≠ []) (h : ':' ∉ dir) :
    (strtok dir).1 = some dir := by
  cases dir with
  | nil => exact absurd rfl hne
  | cons a t =>
    have h' := h
    simp only [List.mem_cons, not_or] at h'
    have ha : (a == ':') = false := by simpa using Ne.symm h'.1
    have hd : (a :: t).dropWhile (fun c => c == ':') = a :: t := by
      simp [List.dropWhile_cons, ha]
    have ht : (a :: t).takeWhile (fun c => c != ':') = a :: t := by
      rw [List.takeWhile_eq_self_iff]
      intro x hx
      have : x ≠ ':' := fun e => h (e ▸ hx)
      simpa [bne_iff_ne] using this
    unfold strtok
    simp only [hd, ht]

/-- When the guard of the remote tier fails, the resolver gives what it gives
with the three remote globals `NULL`. -/
theorem get_full_path_remote_off {σ : Type} (os : Sys σ) (cfg : Config) (s : σ) (p : CStr)
    (uf : Bool) (h : remoteConfigured cfg = false) :
    get_full_path os cfg s p uf =
      get_full_path os ⟨cfg.root, cfg.fallbackPath, none, none, none⟩ s p uf := by
  obtain ⟨r, fb, rh, rd, lm⟩ := cfg
  cases rh <;> cases rd <;> cases lm <;> simp [remoteConfigured] at h <;> simp [get_full_path]

/-- When the first call of `strtok` finds no token, the second finds none. -/
theorem strtok_second_none (b : CStr) (h : (strtok b).1 = none) :
    (strtok (strtok b).2).1 = none := by
  have hs : strtok b = (none, []) := by
    unfold strtok at h ⊢
    cases hd : List.dropWhile (fun c => c == ':') b with
    | nil => rfl
    | cons x xs => simp [hd] at h
  rw [hs]
  rfl

/-- The option loop keeps the invariant that `remoteDirectory` is set only
together with `remoteHost`. -/
theorem parseOpts_inv (opts : List CStr) (c : Config)
    (h : c.remoteDirectory.isSome = true → c.remoteHost.isSome = true) :
    (parseOpts opts c).remoteDirectory.isSome = true →
      (parseOpts opts c).remoteHost.isSome = true := by
  induction opts, c using parseOpts.induct with
  | case1 b rest c ih =>
    simp only [parseOpts, if_true]
    exact ih h
  | case2 b rest c n1 ih =>
    simp only [parseOpts, n1, if_false, if_true]
    apply ih
    intro hd
    cases hb : (strtok b).1 with
    | none => rw [strtok_second_none b hb] at hd; simp at hd
    | some x => simp only [hb, Option.isSome_some]
  | case3 b rest c n1 n2 ih =>
    simp only [parseOpts, n1, n2, if_false, if_true]
    exact ih h
  | case4 a b rest c n1 n2 n3 ih =>
    simp only [parseOpts, n1, n2, n3, if_false]
    exact ih h
  | case5 t c hne =>
    rw [parseOpts_short t c hne]
    exact h

/-- Two sets of globals that keep that invariant and differ at most in
`remoteHost` resolve alike. -/
theorem get_full_path_host_inv {σ : Type} (os : Sys σ) (c d : Config) (s : σ) (p : CStr)
    (uf : Bool) (h1 : c.root = d.root) (h2 : c.fallbackPath = d.fallbackPath)
    (h4 : c.remoteDirectory = d.remoteDirectory) (h5 : c.localMountPoint = d.localMountPoint)
    (hc : c.remoteDirectory.isSome = true → c.remoteHost.isSome = true)
    (hd : d.remoteDirectory.isSome = true → d.remoteHost.isSome = true) :
    get_full_path os c s p uf = get_full_path os d s p uf := by
  obtain ⟨r, fb, rh, rd, lm⟩ := c
  obtain ⟨r', fb', rh', rd', lm'⟩ := d
  simp only at h1 h2 h4 h5 hc hd
  subst h1 h2 h4 h5
  cases rd <;> cases rh <;> cases rh' <;> simp at hc hd <;> cases lm <;> simp [get_full_path]

/-- The loop of `passthrough_readdir` calls `readdir` only. -/
theorem readdir_loop_calls {β : Type} (filler : β → CStr → Stat → Bool × β)
    (entries : List Dirent) (buf : β) :
    ∀ c ∈ (readdir_loop filler entries buf).2, c.isProbe = false := by
  induction entries generalizing buf with
  | nil => simp [readdir_loop, Call.isProbe]
  | cons de rest ih =>
    unfold readdir_loop
    simp only
    split_ifs
    · simp [Call.isProbe]
    · intro c hc
      simp only [List.mem_cons] at hc
      rcases hc with hc | hc
      · subst hc
        rfl
      · exact ih _ c hc

/-! ## The claims -/

/-- C1, as amended: with only the primary root configured, `get_full_path(p)`
returns a path iff the allocation of the buffer succeeds and the existence
probe holds for the first `PATH_MAX - 1` chars of `primary_root + "/" + p`
(`p` with its leading separator dropped), the path returned is exactly those
chars, and they are the whole text when it is shorter than `PATH_MAX`;
otherwise it returns `NULL`. -/
theorem C1_primary_only {σ : Type} (os : Sys σ) (cfg : Config) (s : σ) (p : CStr)
    (hfb : cfg.fallbackPath = none) (hrem : remoteConfigured cfg = false) :
    (get_full_path os cfg s p false).1 =
        (if os.malloc s = true ∧ os.access s (snprintf2 cfg.root (skipSlash p)) = true
          then some (snprintf2 cfg.root (skipSlash p)) else none) ∧
      ((join2 cfg.root (skipSlash p)).length < PATH_MAX →
        snprintf2 cfg.root (skipSlash p) = join2 cfg.root (skipSlash p)) := by
  refine ⟨?_, snprintf2_fits _ _⟩
  obtain ⟨root, fb, rh, rd, lm⟩ := cfg
  simp only at hfb
  subst hfb
  cases hm : os.malloc s
  · simp [get_full_path, hm]
  · cases ha : os.access s (snprintf2 root (skipSlash p))
    · cases rh <;> cases rd <;> cases lm <;>
        simp_all [get_full_path, probe, remoteConfigured]
    · simp [get_full_path, probe, hm, ha]

/-- C1, witness: under `/data/primary` alone, `/notes.txt` resolves to
`/data/primary/notes.txt` when that path exists. -/
theorem C1_primary_only_witness :
    cfgPrimary.fallbackPath = none ∧ remoteConfigured cfgPrimary = false ∧
      (get_full_path (simSys true) cfgPrimary ["/data/primary/notes.txt".toList]
        "/notes.txt".toList false).1 = some "/data/primary/notes.txt".toList := by
  refine ⟨rfl, rfl, ?_⟩
  rw [(C1_primary_only (simSys true) cfgPrimary ["/data/primary/notes.txt".toList]
    "/notes.txt".toList rfl rfl).1]
  decide

/-- C1, counterexample: the claim as stated says that the result is
`primary_root + "/" + p` when that text exists and `NULL` otherwise. With
`malloc` failing the result is `NULL` although `/data/primary/notes.txt`
exists; with the primary root `longRoot` and the path `/aaaaaaaa` the
candidate of 4099 chars does not exist, and the result is its first 4095
chars, which do. -/
theorem C1_counterexample :
    ((get_full_path (simSys false) cfgPrimary ["/data/primary/notes.txt".toList]
          "/notes.txt".toList false).1 = none ∧
        (simSys false).access ["/data/primary/notes.txt".toList]
          (join2 cfgPrimary.root (skipSlash "/notes.txt".toList)) = true) ∧
      ((get_full_path (simSys true) cfgLong [longCut] "/aaaaaaaa".toList false).1 = some longCut ∧
        (simSys true).access [longCut] (join2 cfgLong.root (skipSlash "/aaaaaaaa".toList))
          = false) := by
  refine ⟨⟨by decide, by decide⟩, ?_, simSys_longJoin true⟩
  rw [get_full_path_long]

/-- C2, as amended: with a fallback root configured (with or without a remote
overlay), if the allocation of the buffer succeeds and the candidates
`primary_root/p` and `fallback_root/p`, each as the buffer holds it (its
first `PATH_MAX - 1` chars), both exist, `get_full_path(p)` returns the
primary one after a single probe: no later tier is consulted. The buffer
holds the whole of `primary_root/p` when that is shorter than `PATH_MAX`. -/
theorem C2_priority {σ : Type} (os : Sys σ) (cfg : Config) (s : σ) (p fb : CStr)
    (hfb : cfg.fallbackPath = some fb) (hm : os.malloc s = true)
    (h1 : os.access s (snprintf2 cfg.root (skipSlash p)) = true)
    (h2 : os.access s (snprintf2 fb (skipSlash p)) = true) :
    get_full_path os cfg s p false =
        (some (snprintf2 cfg.root (skipSlash p)),
          [Call.access (snprintf2 cfg.root (skipSlash p))]) ∧
      ((join2 cfg.root (skipSlash p)).length < PATH_MAX →
        snprintf2 cfg.root (skipSlash p) = join2 cfg.root (skipSlash p)) := by
  have _ := hfb
  have _ := h2
  exact ⟨by simp [get_full_path, probe, hm, h1], snprintf2_fits _ _⟩

/-- C2, witness: `/notes.txt` exists under both `/data/primary` and
`/data/fallback`, and resolves to `/data/primary/notes.txt`. -/
theorem C2_priority_witness :
    get_full_path (simSys true) cfgFallback
        ["/data/primary/notes.txt".toList, "/data/fallback/notes.txt".toList]
        "/notes.txt".toList false =
      (some "/data/primary/notes.txt".toList, [Call.access "/data/primary/notes.txt".toList]) := by
  have h := (C2_priority (simSys true) cfgFallback
    ["/data/primary/notes.txt".toList, "/data/fallback/notes.txt".toList]
    "/notes.txt".toList "/data/fallback".toList rfl rfl (by decide) (by decide)).1
  rw [h]
  decide

/-- C2, counterexample: the claim as stated promises `primary_root/p` whenever
`primary_root/p` and `fallback_root/p` both exist. With `malloc` failing the
result is `NULL`; with the primary root `longRoot`, the fallback root `/f`
and the path `/aaaaaaaa`, both candidates exist, the buffer holds only the
first 4095 chars of the primary one, which do not exist, and the result is
the fallback path `/f/aaaaaaaa`. -/
theorem C2_counterexample :
    ((simSys false).access
          ["/data/primary/notes.txt".toList, "/data/fallback/notes.txt".toList]
          (join2 cfgFallback.root (skipSlash "/notes.txt".toList)) = true ∧
        (simSys false).access
          ["/data/primary/notes.txt".toList, "/data/fallback/notes.txt".toList]
          (join2 "/data/fallback".toList (skipSlash "/notes.txt".toList)) = true ∧
        (get_full_path (simSys false) cfgFallback
          ["/data/primary/notes.txt".toList, "/data/fallback/notes.txt".toList]
          "/notes.txt".toList false).1 = none) ∧
      ((simSys true).access [join2 longRoot "aaaaaaaa".toList, "/f/aaaaaaaa".toList]
          (join2 cfgLongFallback.root (skipSlash "/aaaaaaaa".toList)) = true ∧
        (simSys true).access [join2 longRoot "aaaaaaaa".toList, "/f/aaaaaaaa".toList]
          (join2 "/f".toList (skipSlash "/aaaaaaaa".toList)) = true ∧
        (get_full_path (simSys true) cfgLongFallback
          [join2 longRoot "aaaaaaaa".toList, "/f/aaaaaaaa".toList]
          "/aaaaaaaa".toList false).1 = some "/f/aaaaaaaa".toList) := by
  refine ⟨⟨by decide, by decide, by decide⟩, ?_, ?_, ?_⟩
  · have h1 : skipSlash "/aaaaaaaa".toList = "aaaaaaaa".toList := rfl
    have h2 : cfgLongFallback.root = longRoot := rfl
    rw [h1, h2]
    simp [simSys]
  · have h1 : skipSlash "/aaaaaaaa".toList = "aaaaaaaa".toList := rfl
    rw [h1]
    simp [simSys, join2]
  · exact get_full_path_longFallback

/-- C3, as amended: when the allocation of the buffer succeeds and the
primary candidate, as the buffer holds it (the first `PATH_MAX - 1` chars of
`primary_root/p`), does not exist: if the configured fallback candidate, as
the buffer holds it, exists, `get_full_path(p)` returns it; if the fallback
is unconfigured or its candidate in the buffer does not exist, and the
remote overlay is configured (host, directory and mount point all set) and
has the path, `get_full_path(p)` returns the buffer's content for
`local_mount_point + "/" + remote_directory + "/" + normalized p`. The
buffer holds a candidate whole when it is shorter than `PATH_MAX`. -/
theorem C3_skip {σ : Type} (os : Sys σ) (cfg : Config) (s : σ) (p : CStr)
    (hm : os.malloc s = true)
    (h1 : os.access s (snprintf2 cfg.root (skipSlash p)) = false) :
    (∀ fb, cfg.fallbackPath = some fb → os.access s (snprintf2 fb (skipSlash p)) = true →
        (get_full_path os cfg s p false).1 = some (snprintf2 fb (skipSlash p))) ∧
      (∀ rh rd lm, cfg.remoteHost = some rh → cfg.remoteDirectory = some rd →
        cfg.localMountPoint = some lm →
        (∀ fb, cfg.fallbackPath = some fb → os.access s (snprintf2 fb (skipSlash p)) = false) →
        os.access s (snprintf3 lm rd (skipSlash p)) = true →
        (get_full_path os cfg s p false).1 = some (snprintf3 lm rd (skipSlash p))) ∧
      (∀ base path, (join2 base path).length < PATH_MAX →
        snprintf2 base path = join2 base path) ∧
      (∀ base dir path, (join3 base dir path).length < PATH_MAX →
        snprintf3 base dir path = join3 base dir path) := by
  refine ⟨?_, ?_, snprintf2_fits, snprintf3_fits⟩
  · intro fb hfb h2
    rw [get_full_path_fallback os cfg s p fb hm hfb h1 h2]
  · intro rh rd lm hrh hrd hlm h2 h3
    rw [get_full_path_remote os cfg s p rh rd lm hm h1 h2 hrh hrd hlm]
    simp [h3]

/-- C3, witness: the two scenarios of the claim. Under `/data/primary` and
`/data/fallback`, with only `/data/fallback/notes.txt` existing, `/notes.txt`
resolves to `/data/fallback/notes.txt`; with `remote_directory="shared"`,
`local_mount_point="/mnt/remote"` and only `/mnt/remote/shared/x/y` existing,
`/x/y` resolves to `/mnt/remote/shared/x/y`. -/
theorem C3_skip_witness :
    (get_full_path (simSys true) cfgFallback ["/data/fallback/notes.txt".toList]
        "/notes.txt".toList false).1 = some "/data/fallback/notes.txt".toList ∧
      (get_full_path (simSys true) cfgRemote ["/mnt/remote/shared/x/y".toList]
        "/x/y".toList false).1 = some "/mnt/remote/shared/x/y".toList := by
  constructor
  · rw [(C3_skip (simSys true) cfgFallback ["/data/fallback/notes.txt".toList]
      "/notes.txt".toList rfl (by decide)).1 "/data/fallback".toList rfl (by decide)]
    decide
  · rw [(C3_skip (simSys true) cfgRemote ["/mnt/remote/shared/x/y".toList]
      "/x/y".toList rfl (by decide)).2.1 "host".toList "shared".toList "/mnt/remote".toList
      rfl rfl rfl (by intro fb h; cases h) (by decide)]
    decide

/-- C3, counterexample: the claim as stated promises `fallback_root/p`
whenever `primary_root/p` does not exist and `fallback_root/p` does. With
`malloc` failing the result is `NULL`; with the primary root `longRoot`, the
fallback root `/f` and the path `/aaaaaaaa`, the primary candidate of 4099
chars does not exist, `/f/aaaaaaaa` exists, and the result is `longCut`, the
first 4095 chars of the primary candidate, which exist. -/
theorem C3_counterexample :
    ((simSys false).access ["/data/fallback/notes.txt".toList]
          (join2 cfgFallback.root (skipSlash "/notes.txt".toList)) = false ∧
        (simSys false).access ["/data/fallback/notes.txt".toList]
          (join2 "/data/fallback".toList (skipSlash "/notes.txt".toList)) = true ∧
        (get_full_path (simSys false) cfgFallback ["/data/fallback/notes.txt".toList]
          "/notes.txt".toList false).1 = none) ∧
      ((simSys true).access [longCut, "/f/aaaaaaaa".toList]
          (join2 cfgLongFallback.root (skipSlash "/aaaaaaaa".toList)) = false ∧
        (simSys true).access [longCut, "/f/aaaaaaaa".toList]
          (join2 "/f".toList (skipSlash "/aaaaaaaa".toList)) = true ∧
        (get_full_path (simSys true) cfgLongFallback [longCut, "/f/aaaaaaaa".toList]
          "/aaaaaaaa".toList false).1 = some longCut ∧
        longCut ≠ join2 "/f".toList (skipSlash "/aaaaaaaa".toList)) := by
  have h1 : skipSlash "/aaaaaaaa".toList = "aaaaaaaa".toList := rfl
  have h2 : cfgLongFallback.root = longRoot := rfl
  have h3 : join2 "/f".toList "aaaaaaaa".toList = "/f/aaaaaaaa".toList := by decide
  refine ⟨⟨by decide, by decide, by decide⟩, ?_, ?_, get_full_path_longCutFallback, ?_⟩
  · rw [h1, h2]
    simp only [simSys, decide_eq_false_iff_not, List.mem_cons, List.mem_singleton,
      List.not_mem_nil, or_false, not_or]
    exact ⟨join2_longRoot_ne, join2_longRoot_ne_short⟩
  · rw [h1, h3]
    simp [simSys]
  · rw [h1, h3]
    exact longCut_ne_short

/-- C4, as amended: when no configured tier's candidate for `p`, as the
buffer holds it (its first `PATH_MAX - 1` chars), exists, `get_full_path(p)`
returns `NULL`, and each of the five verbs returns `-ENOENT`, leaves the
world as it was and issues no native operation (no `lstat`, `opendir`,
`open`, `pread`, `pwrite`, `mkdir`), only the existence probes. -/
theorem C4_not_found {σ β : Type} (os : Sys σ) (cfg : Config) (s : σ) (p : CStr)
    (buf : β) (filler : β → CStr → Stat → Bool × β) (size : Nat) (offset : Int)
    (wbuf : List Char) (mode : Nat)
    (h1 : os.access s (snprintf2 cfg.root (skipSlash p)) = false)
    (h2 : ∀ fb, cfg.fallbackPath = some fb → os.access s (snprintf2 fb (skipSlash p)) = false)
    (h3 : ∀ rh rd lm, cfg.remoteHost = some rh → cfg.remoteDirectory = some rd →
      cfg.localMountPoint = some lm → os.access s (snprintf3 lm rd (skipSlash p)) = false) :
    (get_full_path os cfg s p false).1 = none ∧
      (passthrough_getattr os cfg s p).noEntry s ∧
      (passthrough_readdir os cfg s p buf filler).noEntry s ∧
      (passthrough_read os cfg s p size offset).noEntry s ∧
      (passthrough_write os cfg s p wbuf size offset).noEntry s ∧
      (passthrough_mkdir os cfg s p mode).noEntry s ∧
      (∀ base path, (join2 base path).length < PATH_MAX →
        snprintf2 base path = join2 base path) ∧
      (∀ base dir path, (join3 base dir path).length < PATH_MAX →
        snprintf3 base dir path = join3 base dir path) := by
  have hn := get_full_path_none os cfg s p h1 h2 h3
  have hv := verbs_of_none os cfg s p buf filler size offset wbuf mode hn
  exact ⟨hn, hv.1, hv.2.1, hv.2.2.1, hv.2.2.2.1, hv.2.2.2.2, snprintf2_fits, snprintf3_fits⟩

/-- C4, witness: under `/data/primary` and `/data/fallback`, `/missing.txt`
exists nowhere; `passthrough_getattr` returns `-ENOENT` and its only calls
are the two probes. -/
theorem C4_not_found_witness :
    (passthrough_getattr (simSys true) cfgFallback ["/data/fallback/notes.txt".toList]
        "/missing.txt".toList).ret = -ENOENT ∧
      (passthrough_getattr (simSys true) cfgFallback ["/data/fallback/notes.txt".toList]
        "/missing.txt".toList).trace =
        [Call.access "/data/primary/missing.txt".toList,
          Call.access "/data/fallback/missing.txt".toList] := by
  have h := C4_not_found (simSys true) cfgFallback ["/data/fallback/notes.txt".toList]
    "/missing.txt".toList () (fun b _ _ => (false, b)) 5 0 [] 0 (by decide)
    (by intro fb h; cases h; decide) (by intro rh rd lm h; cases h)
  exact ⟨h.2.1.1, by decide⟩

/-- C4, counterexample: under the only root `longRoot`, in the world that
holds `longCut` alone, no tier's candidate for `/aaaaaaaa` exists (the
candidate has 4099 chars); yet `get_full_path` returns `longCut`, and
`passthrough_getattr` calls `lstat` on it and returns 0. -/
theorem C4_counterexample :
    (simSys true).access [longCut] (join2 cfgLong.root (skipSlash "/aaaaaaaa".toList)) = false ∧
      cfgLong.fallbackPath = none ∧ remoteConfigured cfgLong = false ∧
      (get_full_path (simSys true) cfgLong [longCut] "/aaaaaaaa".toList false).1 = some longCut ∧
      (passthrough_getattr (simSys true) cfgLong [longCut] "/aaaaaaaa".toList).ret = 0 ∧
      Call.lstat longCut ∈
        (passthrough_getattr (simSys true) cfgLong [longCut] "/aaaaaaaa".toList).trace := by
  refine ⟨simSys_longJoin true, rfl, rfl, ?_, ?_, ?_⟩
  · rw [get_full_path_long]
  · unfold passthrough_getattr
    rw [get_full_path_long]
    simp [simSys]
  · unfold passthrough_getattr
    rw [get_full_path_long]
    simp [simSys]

/-- C5: for a virtual path `p` that does not begin with the separator,
`get_full_path("/" ++ p)` and `get_full_path(p)` give the same result and make
the same probes; the normalization drops exactly one leading separator. -/
theorem C5_normalization {σ : Type} (os : Sys σ) (cfg : Config) (s : σ) (p : CStr)
    (uf : Bool) (hp : p.head? ≠ some '/') :
    get_full_path os cfg s ('/' :: p) uf = get_full_path os cfg s p uf ∧
      (∀ q : CStr, skipSlash ('/' :: q) = q) := by
  have h1 : ∀ q : CStr, skipSlash ('/' :: q) = q := fun q => rfl
  have h2 : skipSlash p = p := by
    unfold skipSlash
    split
    · simp at hp
    · rfl
  refine ⟨?_, h1⟩
  unfold get_full_path
  rw [h1, h2]

/-- C5, witness: `/a/b` and `a/b` resolve alike, here to `/data/primary/a/b`. -/
theorem C5_normalization_witness :
    "a/b".toList.head? ≠ some '/' ∧
      get_full_path (simSys true) cfgFallback ["/data/primary/a/b".toList] "/a/b".toList false =
        get_full_path (simSys true) cfgFallback ["/data/primary/a/b".toList] "a/b".toList false ∧
      (get_full_path (simSys true) cfgFallback ["/data/primary/a/b".toList]
        "a/b".toList false).1 = some "/data/primary/a/b".toList :=
  ⟨by decide,
    (C5_normalization (simSys true) cfgFallback ["/data/primary/a/b".toList] "a/b".toList false
      (by decide)).1, by decide⟩

/-- C6, as amended: allocation failure is not signalled apart from not-found.
When the allocation of the buffer fails, `get_full_path` returns `NULL`, the
value it returns when no tier holds the path, without probing anything, and
each verb returns `-ENOENT`, leaves the world as it was and issues no call. -/
theorem C6_alloc_failure {σ β : Type} (os : Sys σ) (cfg : Config) (s : σ) (p : CStr)
    (uf : Bool) (buf : β) (filler : β → CStr → Stat → Bool × β) (size : Nat) (offset : Int)
    (wbuf : List Char) (mode : Nat) (hm : os.malloc s = false) :
    get_full_path os cfg s p uf = (none, []) ∧
      ((passthrough_getattr os cfg s p).ret = -ENOENT ∧
        (passthrough_getattr os cfg s p).state = s ∧
        (passthrough_getattr os cfg s p).trace = []) ∧
      ((passthrough_readdir os cfg s p buf filler).ret = -ENOENT ∧
        (passthrough_readdir os cfg s p buf filler).state = s ∧
        (passthrough_readdir os cfg s p buf filler).trace = []) ∧
      ((passthrough_read os cfg s p size offset).ret = -ENOENT ∧
        (passthrough_read os cfg s p size offset).state = s ∧
        (passthrough_read os cfg s p size offset).trace = []) ∧
      ((passthrough_write os cfg s p wbuf size offset).ret = -ENOENT ∧
        (passthrough_write os cfg s p wbuf size offset).state = s ∧
        (passthrough_write os cfg s p wbuf size offset).trace = []) ∧
      ((passthrough_mkdir os cfg s p mode).ret = -ENOENT ∧
        (passthrough_mkdir os cfg s p mode).state = s ∧
        (passthrough_mkdir os cfg s p mode).trace = []) := by
  have h := get_full_path_nomem os cfg s p false hm
  refine ⟨get_full_path_nomem os cfg s p uf hm, ?_, ?_, ?_, ?_, ?_⟩
  · simp [passthrough_getattr, h]
  · simp [passthrough_readdir, h]
  · simp [passthrough_read, h]
  · simp [passthrough_write, h]
  · simp [passthrough_mkdir, h]

/-- C6, witness: with `malloc` failing, `passthrough_getattr` on the existing
`/notes.txt` returns `-ENOENT` and calls nothing. -/
theorem C6_alloc_failure_witness :
    (simSys false).malloc ["/data/fallback/notes.txt".toList] = false ∧
      (passthrough_getattr (simSys false) cfgFallback ["/data/fallback/notes.txt".toList]
        "/notes.txt".toList).ret = -ENOENT ∧
      (passthrough_getattr (simSys false) cfgFallback ["/data/fallback/notes.txt".toList]
        "/notes.txt".toList).trace = [] :=
  have h := C6_alloc_failure (simSys false) cfgFallback ["/data/fallback/notes.txt".toList]
    "/notes.txt".toList false () (fun b _ _ => (false, b)) 5 0 [] 0 rfl
  ⟨rfl, h.2.1.1, h.2.1.2.2⟩

/-- C6, counterexample: the claim says that under allocation failure the
outcome of `get_full_path` can be told from not-found and that the verbs
return a code other than `-ENOENT`. With `malloc` failing, resolving the
existing `/notes.txt` gives `NULL`, which is what resolving `/missing.txt`
gives when `malloc` succeeds and no tier holds the path, and each of the
five verbs returns `-ENOENT`. -/
theorem C6_counterexample :
    (get_full_path (simSys false) cfgFallback ["/data/fallback/notes.txt".toList]
        "/notes.txt".toList false).1 =
      (get_full_path (simSys true) cfgFallback ["/data/fallback/notes.txt".toList]
        "/missing.txt".toList false).1 ∧
      (passthrough_getattr (simSys false) cfgFallback ["/data/fallback/notes.txt".toList]
        "/notes.txt".toList).ret = -ENOENT ∧
      (passthrough_readdir (simSys false) cfgFallback ["/data/fallback/notes.txt".toList]
        "/notes.txt".toList () (fun b _ _ => (false, b))).ret = -ENOENT ∧
      (passthrough_read (simSys false) cfgFallback ["/data/fallback/notes.txt".toList]
        "/notes.txt".toList 5 0).ret = -ENOENT ∧
      (passthrough_write (simSys false) cfgFallback ["/data/fallback/notes.txt".toList]
        "/notes.txt".toList "hello".toList 5 0).ret = -ENOENT ∧
      (passthrough_mkdir (simSys false) cfgFallback ["/data/fallback/notes.txt".toList]
        "/notes.txt".toList 493).ret = -ENOENT := by
  refine ⟨by decide, by decide, by decide, by decide, by decide, by decide⟩

/-- C7: for an argument list in which `--local` does not occur among the
options, or `--remote` does not, the guard of the remote tier fails and
`get_full_path` returns, for every world and virtual path, what it returns
under the same `root` and `fallbackPath` with neither option given; the
remote tier is not probed. -/
theorem C7_partial_remote {σ : Type} (os : Sys σ) (argv : List CStr) (cfg : Config)
    (s : σ) (p : CStr) (uf : Bool) (hmain : main argv = some cfg)
    (h : "--local".toList ∉ argv.drop 3 ∨ "--remote".toList ∉ argv.drop 3) :
    remoteConfigured cfg = false ∧
      get_full_path os cfg s p uf =
        get_full_path os ⟨cfg.root, cfg.fallbackPath, none, none, none⟩ s p uf := by
  have hoff : remoteConfigured cfg = false := by
    match argv, hmain with
    | _ :: _ :: r :: opts, hmain =>
      simp only [main, Option.some.injEq] at hmain
      simp only [List.drop_succ_cons, List.drop_zero] at h
      subst hmain
      rcases h with h | h
      · simp [remoteConfigured, parseOpts_local opts _ h]
      · simp [remoteConfigured, (parseOpts_remote opts _ h).1]
  exact ⟨hoff, get_full_path_remote_off os cfg s p uf hoff⟩

/-- C7, witness: `--remote host:shared` without `--local`; `/x/y` exists
under `/mnt/remote/shared` only and is not found. -/
theorem C7_partial_remote_witness :
    main ["prog".toList, "/mnt/v".toList, "/data/primary".toList, "--remote".toList,
        "host:shared".toList] =
      some ⟨"/data/primary".toList, none, some "host".toList, some "shared".toList, none⟩ ∧
    (get_full_path (simSys true)
      ⟨"/data/primary".toList, none, some "host".toList, some "shared".toList, none⟩
      ["/mnt/remote/shared/x/y".toList] "/x/y".toList false).1 = none := by
  have h := C7_partial_remote (simSys true)
    ["prog".toList, "/mnt/v".toList, "/data/primary".toList, "--remote".toList,
      "host:shared".toList]
    ⟨"/data/primary".toList, none, some "host".toList, some "shared".toList, none⟩
    ["/mnt/remote/shared/x/y".toList] "/x/y".toList false (by decide) (Or.inl (by decide))
  refine ⟨by decide, ?_⟩
  rw [h.2]
  decide

/-- C8, as amended: when the option loop reaches `--remote <host>:<dir>` with
`<host>` non-empty and free of `:` and `<dir>` non-empty and free of `:`,
and no `--remote` occurs among the later arguments, it leaves
`remoteDirectory` set to `<dir>` and `remoteHost` to `<host>`. The host has
no influence on what the resolver returns: `main` sets `remoteDirectory`
only together with `remoteHost`, and two sets of globals of that kind that
differ only in the host resolve every virtual path identically. -/
theorem C8_remote_option {σ : Type} (os : Sys σ) (host dir : CStr) (rest : List CStr)
    (c : Config) (hh : host ≠ []) (hhc : ':' ∉ host) (hd : dir ≠ []) (hdc : ':' ∉ dir)
    (hrest : "--remote".toList ∉ rest) :
    (parseOpts ("--remote".toList :: (host ++ ':' :: dir) :: rest) c).remoteDirectory
        = some dir ∧
      (parseOpts ("--remote".toList :: (host ++ ':' :: dir) :: rest) c).remoteHost
        = some host ∧
      (∀ argv cfg, main argv = some cfg →
        cfg.remoteDirectory.isSome = true → cfg.remoteHost.isSome = true) ∧
      (∀ (a b : Config) (s : σ) (p : CStr) (uf : Bool),
        a.root = b.root → a.fallbackPath = b.fallbackPath →
        a.remoteDirectory = b.remoteDirectory → a.localMountPoint = b.localMountPoint →
        (a.remoteDirectory.isSome = true → a.remoteHost.isSome = true) →
        (b.remoteDirectory.isSome = true → b.remoteHost.isSome = true) →
        get_full_path os a s p uf = get_full_path os b s p uf) := by
  have hstep : parseOpts ("--remote".toList :: (host ++ ':' :: dir) :: rest) c =
      parseOpts rest { c with remoteHost := some host, remoteDirectory := some dir } := by
    have n1 : ¬ "--remote".toList = "--fallback".toList := by decide
    simp only [parseOpts, n1, if_false, if_true, strtok_host host dir hh hhc,
      strtok_dir dir hd hdc]
  refine ⟨?_, ?_, ?_, ?_⟩
  · rw [hstep, (parseOpts_remote rest _ hrest).2]
  · rw [hstep, (parseOpts_remote rest _ hrest).1]
  · intro argv cfg hmain
    match argv, hmain with
    | _ :: _ :: r :: opts, hmain =>
      simp only [main, Option.some.injEq] at hmain
      subst hmain
      exact parseOpts_inv opts _ (by simp)
  · intro a b s p uf h1 h2 h4 h5 ha hb
    exact get_full_path_host_inv os a b s p uf h1 h2 h4 h5 ha hb

/-- C8, witness: `--remote host:shared --local /mnt/remote` sets the directory
name to `shared` and the host to `host`. -/
theorem C8_remote_option_witness :
    "host".toList ≠ [] ∧ ':' ∉ "host".toList ∧ "shared".toList ≠ [] ∧ ':' ∉ "shared".toList ∧
      "--remote".toList ∉ ["--local".toList, "/mnt/remote".toList] ∧
      (parseOpts ["--remote".toList, "host:shared".toList, "--local".toList,
          "/mnt/remote".toList] ⟨"/data/primary".toList, none, none, none, none⟩).remoteDirectory
        = some "shared".toList ∧
      main ["prog".toList, "/mnt/v".toList, "/data/primary".toList, "--remote".toList,
          "host:shared".toList, "--local".toList, "/mnt/remote".toList] = some cfgRemote := by
  refine ⟨by decide, by decide, by decide, by decide, by decide, ?_, by decide⟩
  exact (C8_remote_option (simSys true) "host".toList "shared".toList
    ["--local".toList, "/mnt/remote".toList] ⟨"/data/primary".toList, none, none, none, none⟩
    (by decide) (by decide) (by decide) (by decide) (by decide)).1

/-- C8, counterexample: the claim says that `--remote <host>:<dir>` sets the
directory name to the text after the separating colon. `--remote h:a:b` sets
it to `a`, not `a:b`; `--remote :d` leaves it `NULL`, not `d`, and sets the
host to `d`; `--remote h:` leaves it `NULL`. -/
theorem C8_counterexample :
    (main ["prog".toList, "/mnt/v".toList, "/data".toList, "--remote".toList, "h:a:b".toList] =
        some ⟨"/data".toList, none, some "h".toList, some "a".toList, none⟩ ∧
      "a".toList ≠ "a:b".toList) ∧
      main ["prog".toList, "/mnt/v".toList, "/data".toList, "--remote".toList, ":d".toList] =
        some ⟨"/data".toList, none, some "d".toList, none, none⟩ ∧
      main ["prog".toList, "/mnt/v".toList, "/data".toList, "--remote".toList, "h:".toList] =
        some ⟨"/data".toList, none, some "h".toList, none, none⟩ := by
  refine ⟨⟨by decide, by decide⟩, by decide, by decide⟩

/-- C9: when `get_full_path(p)` gives the path `fp` after the probes `t`, each
verb passes on what its native operation on `fp` gives. If the operation
(`lstat`, `opendir`, `open`, `pread`, `pwrite`, `mkdir`) fails with `errno`
`e` the verb returns `-e`; if it succeeds, attribute lookup, directory
listing and directory creation return 0, read returns the number of bytes
read and write the number written. The calls of each verb are the probes `t`
of one resolution followed by native operations on `fp` with no probe among
them: the resolver runs once and never again after a native failure. -/
theorem C9_native_outcome {σ β : Type} (os : Sys σ) (cfg : Config) (s : σ) (p fp : CStr)
    (t : List Call) (buf : β) (filler : β → CStr → Stat → Bool × β) (size : Nat)
    (offset : Int) (wbuf : List Char) (mode : Nat)
    (h : get_full_path os cfg s p false = (some fp, t)) :
    ((∀ e, os.lstat s fp = .error e → (passthrough_getattr os cfg s p).ret = -e) ∧
      (∀ st, os.lstat s fp = .ok st → (passthrough_getattr os cfg s p).ret = 0) ∧
      (passthrough_getattr os cfg s p).nativeAfter t (Call.lstat fp)) ∧
    ((∀ e, os.opendir s fp = .error e →
        (passthrough_readdir os cfg s p buf filler).ret = -e) ∧
      (∀ es, os.opendir s fp = .ok es →
        (passthrough_readdir os cfg s p buf filler).ret = 0) ∧
      (passthrough_readdir os cfg s p buf filler).nativeAfter t (Call.opendir fp)) ∧
    ((∀ e s1, os.open_ s fp O_RDONLY = (.error e, s1) →
        (passthrough_read os cfg s p size offset).ret = -e) ∧
      (∀ fd s1 e s2, os.open_ s fp O_RDONLY = (.ok fd, s1) →
        os.pread s1 fd size offset = (.error e, s2) →
        (passthrough_read os cfg s p size offset).ret = -e) ∧
      (∀ fd s1 bytes s2, os.open_ s fp O_RDONLY = (.ok fd, s1) →
        os.pread s1 fd size offset = (.ok bytes, s2) →
        (passthrough_read os cfg s p size offset).ret = bytes.length ∧
          (passthrough_read os cfg s p size offset).out = bytes) ∧
      (passthrough_read os cfg s p size offset).nativeAfter t (Call.open_ fp O_RDONLY)) ∧
    ((∀ e s1, os.open_ s fp O_WRONLY = (.error e, s1) →
        (passthrough_write os cfg s p wbuf size offset).ret = -e) ∧
      (∀ fd s1 e s2, os.open_ s fp O_WRONLY = (.ok fd, s1) →
        os.pwrite s1 fd wbuf size offset = (.error e, s2) →
        (passthrough_write os cfg s p wbuf size offset).ret = -e) ∧
      (∀ fd s1 n s2, os.open_ s fp O_WRONLY = (.ok fd, s1) →
        os.pwrite s1 fd wbuf size offset = (.ok n, s2) →
        (passthrough_write os cfg s p wbuf size offset).ret = n) ∧
      (passthrough_write os cfg s p wbuf size offset).nativeAfter t
        (Call.open_ fp O_WRONLY)) ∧
    ((∀ e s1, os.mkdir s fp mode = (.error e, s1) →
        (passthrough_mkdir os cfg s p mode).ret = -e) ∧
      (∀ u s1, os.mkdir s fp mode = (.ok u, s1) →
        (passthrough_mkdir os cfg s p mode).ret = 0) ∧
      (passthrough_mkdir os cfg s p mode).nativeAfter t (Call.mkdir fp mode)) := by
  refine ⟨⟨?_, ?_, ?_⟩, ⟨?_, ?_, ?_⟩, ⟨?_, ?_, ?_, ?_⟩, ⟨?_, ?_, ?_, ?_⟩, ⟨?_, ?_, ?_⟩⟩
  · intro e he
    simp [passthrough_getattr, h, he]
  · intro st he
    simp [passthrough_getattr, h, he]
  · cases he : os.lstat s fp <;>
      exact ⟨[], by simp [passthrough_getattr, h, he], by simp [Call.isProbe]⟩
  · intro e he
    simp [passthrough_readdir, h, he]
  · intro es he
    simp [passthrough_readdir, h, he]
  · cases he : os.opendir s fp with
    | error e => exact ⟨[], by simp [passthrough_readdir, h, he], by simp [Call.isProbe]⟩
    | ok es =>
      refine ⟨(readdir_loop filler es buf).2 ++ [Call.closedir],
        by simp [passthrough_readdir, h, he], ?_⟩
      intro c hc
      simp only [List.mem_cons, List.mem_append, List.mem_singleton, List.not_mem_nil,
        or_false] at hc
      rcases hc with hc | hc | hc
      · subst hc
        rfl
      · exact readdir_loop_calls filler es buf c hc
      · subst hc
        rfl
  · intro e s1 he
    simp [passthrough_read, h, he]
  · intro fd s1 e s2 he hr
    simp [passthrough_read, h, he, hr]
  · intro fd s1 bytes s2 he hr
    simp [passthrough_read, h, he, hr]
  · rcases he : os.open_ s fp O_RDONLY with ⟨r, s1⟩
    cases r with
    | error e => exact ⟨[], by simp [passthrough_read, h, he], by simp [Call.isProbe]⟩
    | ok fd =>
      rcases hr : os.pread s1 fd size offset with ⟨r2, s2⟩
      cases r2 <;>
        exact ⟨[Call.pread fd size offset, Call.close fd],
          by simp [passthrough_read, h, he, hr], by simp [Call.isProbe]⟩
  · intro e s1 he
    simp [passthrough_write, h, he]
  · intro fd s1 e s2 he hr
    simp [passthrough_write, h, he, hr]
  · intro fd s1 n s2 he hr
    simp [passthrough_write, h, he, hr]
  · rcases he : os.open_ s fp O_WRONLY with ⟨r, s1⟩
    cases r with
    | error e => exact ⟨[], by simp [passthrough_write, h, he], by simp [Call.isProbe]⟩
    | ok fd =>
      rcases hr : os.pwrite s1 fd wbuf size offset with ⟨r2, s2⟩
      cases r2 <;>
        exact ⟨[Call.pwrite fd wbuf size offset, Call.close fd],
          by simp [passthrough_write, h, he, hr], by simp [Call.isProbe]⟩
  · intro e s1 he
    simp [passthrough_mkdir, h, he]
  · intro u s1 he
    simp [passthrough_mkdir, h, he]
  · rcases he : os.mkdir s fp mode with ⟨r, s1⟩
    cases r <;>
      exact ⟨[], by simp [passthrough_mkdir, h, he], by simp [Call.isProbe]⟩

/-- C9, witness: under `/data/primary` and `/data/fallback`, with only
`/data/fallback/notes.txt` existing, `/notes.txt` resolves to it; a read of 5
bytes at offset 0 returns 5, and `mkdir`, which fails with `EEXIST` there,
returns `-EEXIST`. -/
theorem C9_native_outcome_witness :
    get_full_path (simSys true) cfgFallback ["/data/fallback/notes.txt".toList]
        "/notes.txt".toList false =
      (some "/data/fallback/notes.txt".toList,
        [Call.access "/data/primary/notes.txt".toList,
          Call.access "/data/fallback/notes.txt".toList]) ∧
    (passthrough_read (simSys true) cfgFallback ["/data/fallback/notes.txt".toList]
      "/notes.txt".toList 5 0).ret = 5 ∧
    (passthrough_mkdir (simSys true) cfgFallback ["/data/fallback/notes.txt".toList]
      "/notes.txt".toList 493).ret = -EEXIST := by
  have hg : get_full_path (simSys true) cfgFallback ["/data/fallback/notes.txt".toList]
        "/notes.txt".toList false =
      (some "/data/fallback/notes.txt".toList,
        [Call.access "/data/primary/notes.txt".toList,
          Call.access "/data/fallback/notes.txt".toList]) := by decide
  have h := C9_native_outcome (simSys true) cfgFallback ["/data/fallback/notes.txt".toList]
    "/notes.txt".toList "/data/fallback/notes.txt".toList _ ()
    (fun b _ _ => (false, b)) 5 0 [] 493 hg
  refine ⟨hg, ?_, ?_⟩
  · exact (h.2.2.1.2.2.1 3 ["/data/fallback/notes.txt".toList] (List.replicate 5 'x')
      ["/data/fallback/notes.txt".toList] rfl rfl).1
  · exact h.2.2.2.2.1 EEXIST ["/data/fallback/notes.txt".toList] rfl

/-- C10, as amended: `passthrough_mkdir` calls native `mkdir` only on the path
`get_full_path` has just returned, whose existence probe has just succeeded;
it returns `-ENOENT`, leaves the world as it was and calls no `mkdir` when no
tier's candidate for `p`, as the buffer holds it (its first `PATH_MAX - 1`
chars), exists; so, under a native `mkdir` that fails with `EEXIST` on an
existing path and leaves the world as it was, `passthrough_mkdir` never
returns 0 and never changes the world. -/
theorem C10_mkdir_existing {σ : Type} (os : Sys σ) (cfg : Config) (s : σ) (p : CStr)
    (mode : Nat) :
    (∀ fp m, Call.mkdir fp m ∈ (passthrough_mkdir os cfg s p mode).trace →
        (get_full_path os cfg s p false).1 = some fp ∧ os.access s fp = true ∧
          Call.access fp ∈ (get_full_path os cfg s p false).2) ∧
      (os.access s (snprintf2 cfg.root (skipSlash p)) = false →
        (∀ fb, cfg.fallbackPath = some fb →
          os.access s (snprintf2 fb (skipSlash p)) = false) →
        (∀ rh rd lm, cfg.remoteHost = some rh → cfg.remoteDirectory = some rd →
          cfg.localMountPoint = some lm →
          os.access s (snprintf3 lm rd (skipSlash p)) = false) →
        (passthrough_mkdir os cfg s p mode).noEntry s) ∧
      ((∀ q m, os.access s q = true → os.mkdir s q m = (.error EEXIST, s)) →
        (passthrough_mkdir os cfg s p mode).ret ≠ 0 ∧
          (passthrough_mkdir os cfg s p mode).state = s) ∧
      (∀ base path, (join2 base path).length < PATH_MAX →
        snprintf2 base path = join2 base path) ∧
      (∀ base dir path, (join3 base dir path).length < PATH_MAX →
        snprintf3 base dir path = join3 base dir path) := by
  refine ⟨?_, ?_, ?_, snprintf2_fits, snprintf3_fits⟩
  · intro fp m hmem
    have hp := get_full_path_probes os cfg s p false
    have hex := get_full_path_exists os cfg s p
    rcases hg : get_full_path os cfg s p false with ⟨r, t⟩
    rw [hg] at hp
    simp only at hp
    have hcall : Call.mkdir fp m ∉ t := fun hin => by
      have := hp _ hin
      simp [Call.isProbe] at this
    cases r with
    | none =>
      simp only [passthrough_mkdir, hg] at hmem
      exact absurd hmem hcall
    | some full =>
      have hfull := hex full false (by rw [hg])
      rw [hg] at hfull
      rcases hk : os.mkdir s full mode with ⟨k, s1⟩
      cases k <;>
      · simp only [passthrough_mkdir, hg, hk, List.mem_append, List.mem_singleton,
          Call.mkdir.injEq] at hmem
        rcases hmem with hmem | hmem
        · exact absurd hmem hcall
        · obtain ⟨h1, _⟩ := hmem
          subst h1
          exact ⟨rfl, hfull.1, hfull.2⟩
  · intro h1 h2 h3
    exact (verbs_of_none os cfg s p () (fun b _ _ => (false, b)) 0 0 [] mode
      (get_full_path_none os cfg s p h1 h2 h3)).2.2.2.2
  · intro law
    have hex := get_full_path_exists os cfg s p
    rcases hg : get_full_path os cfg s p false with ⟨r, t⟩
    cases r with
    | none => simp [passthrough_mkdir, hg, ENOENT]
    | some full =>
      have hfull := hex full false (by rw [hg])
      simp [passthrough_mkdir, hg, law full mode hfull.1, EEXIST]

/-- C10, witness: in the small world native `mkdir` fails with `EEXIST` on an
existing path; `passthrough_mkdir` on the existing `/notes.txt` returns
`-EEXIST`, on `/newdir`, which exists in no tier, `-ENOENT`, and the world is
the same after both. -/
theorem C10_mkdir_existing_witness :
    (passthrough_mkdir (simSys true) cfgFallback ["/data/fallback/notes.txt".toList]
        "/notes.txt".toList 493).ret ≠ 0 ∧
      (passthrough_mkdir (simSys true) cfgFallback ["/data/fallback/notes.txt".toList]
        "/notes.txt".toList 493).state = ["/data/fallback/notes.txt".toList] ∧
      (passthrough_mkdir (simSys true) cfgFallback ["/data/fallback/notes.txt".toList]
        "/newdir".toList 493).ret = -ENOENT ∧
      (passthrough_mkdir (simSys true) cfgFallback ["/data/fallback/notes.txt".toList]
        "/newdir".toList 493).state = ["/data/fallback/notes.txt".toList] := by
  have law : ∀ (q : CStr) (m : Nat),
      (simSys true).access ["/data/fallback/notes.txt".toList] q = true →
      (simSys true).mkdir ["/data/fallback/notes.txt".toList] q m =
        (.error EEXIST, ["/data/fallback/notes.txt".toList]) := by
    intro q m hq
    simp only [simSys, decide_eq_true_eq] at hq ⊢
    rw [if_pos hq]
  have h1 := (C10_mkdir_existing (simSys true) cfgFallback ["/data/fallback/notes.txt".toList]
    "/notes.txt".toList 493).2.2.1 law
  have h2 := (C10_mkdir_existing (simSys true) cfgFallback ["/data/fallback/notes.txt".toList]
    "/newdir".toList 493).2.1 (by decide) (by intro fb h; cases h; decide)
    (by intro rh rd lm h; cases h)
  exact ⟨h1.1, h1.2, h2.1, h2.2.1⟩

/-- C10, counterexample: the claim says that `passthrough_mkdir` returns
`-ENOENT` whenever `p` exists in no tier. Under the only root `longRoot`, in
the world that holds `longCut` alone, `/aaaaaaaa` exists in no tier (the
candidate has 4099 chars and does not exist); yet native `mkdir` is called
on `longCut` and `passthrough_mkdir` returns `-EEXIST`. -/
theorem C10_counterexample :
    (simSys true).access [longCut] (join2 cfgLong.root (skipSlash "/aaaaaaaa".toList)) = false ∧
      cfgLong.fallbackPath = none ∧ remoteConfigured cfgLong = false ∧
      (passthrough_mkdir (simSys true) cfgLong [longCut] "/aaaaaaaa".toList 493).ret = -EEXIST ∧
      -EEXIST ≠ -ENOENT ∧
      Call.mkdir longCut 493 ∈
        (passthrough_mkdir (simSys true) cfgLong [longCut] "/aaaaaaaa".toList 493).trace := by
  refine ⟨simSys_longJoin true, rfl, rfl, ?_, by decide, ?_⟩
  · unfold passthrough_mkdir
    rw [get_full_path_long]
    simp [simSys]
  · unfold passthrough_mkdir
    rw [get_full_path_long]
    simp [simSys]

end Fuse
